import Mathlib

/-!
Verification of the dispatch-and-aggregation core of `openbq` (files
`src/openbq/app.py` and `src/openbq/__main__.py`).

The embedding below translates the coordinator logic of `app.py` into pure
Lean functions.  External collaborators (the scoring engine `scan`, the path
transforms `fix_filepath` / `reconstruct_filepath`, the worker pool's
`ray.wait` / `ray.get` primitives and the file system) are represented as
function parameters or explicit outcome values; the side effects the
coordinator performs (`write_log`, `write_csv`, `click.echo`) are modelled as
values accumulated in the result of each function.  Python integers are
modelled as `Int` where the source can produce negative intermediate values
(the per-batch clip arithmetic), and as `Nat` where the source value is a
collection size.  Python exceptions are modelled with `Except String`.
-/

namespace OpenBQ

/-- One diagnostic log entry: a Python dict written by `write_log`,
modelled as an association list of string keys and string values. -/
structure LogEntry where
  pairs : List (String × String)
deriving Repr, DecidableEq

/-- `dict.get(k)`: first value bound to `k`, if any. -/
def LogEntry.get (e : LogEntry) (k : String) : Option String :=
  (e.pairs.find? (fun p => p.1 = k)).map Prod.snd

/-- `dict.update({k: v})`: rebind `k` to `v`. -/
def LogEntry.update (e : LogEntry) (k v : String) : LogEntry :=
  ⟨e.pairs.filter (fun p => p.1 ≠ k) ++ [(k, v)]⟩

/-- Python truthiness of the value returned by `dict.get`: `None` (absent)
and the empty string are falsy. -/
def truthy : Option String → Bool
  | none => false
  | some v => v ≠ ""

/-- One record produced by the external scoring engine `scan` for one input:
its path field and the optional diagnostic sub-log stored under the
record's `"log"` key (`[]` models an absent or empty sub-log, which is
falsy in the source's `if result.get("log")`). -/
structure ScanRecord where
  path : String
  sublog : List LogEntry
deriving Repr, DecidableEq

/-- Placeholder serialization of a sub-log when the source stores a whole
sub-log list as the single `"logs"` value of a wrapper entry
(`{"folder": path, "logs": result.pop("log")}` in `scan_task`). -/
def logsRepr (ls : List LogEntry) : String :=
  String.intercalate ";" (ls.map (fun e =>
    String.intercalate "," (e.pairs.map (fun p => p.1 ++ "=" ++ p.2))))

/-- Everything one `scan_task` execution produced: the `write_log` appends,
the `write_csv` appends (one row per record, identified by the record's
transformed path), and the task's Python return value (`none` models the
bare `return` on the task-error path, `some rs` models `return results`). -/
structure TaskOut where
  logWrites : List LogEntry
  csvWrites : List String
  retval : Option (List String)
deriving Repr, DecidableEq

/-- `scan_task` (app.py lines 552-598), folder branch
(`mode == "speech" or (mode == "face" and engine in ("ofiq", "fusion"))`).
`outcome` is the result of the external call
`scan(path, mode=mode, engine=engine, fusion=fusion)` followed by
`result.get("results")`: a list of records, or the raised exception text.
`fixF` and `reconF` are the external `fix_filepath` and
`reconstruct_filepath` transforms.  The overall `Except` is the task
boundary seen by the worker pool: a `.error` would be a task-level
failure. -/
def scan_task_folder (path : String) (fixF reconF : String → String)
    (outcome : Except String (List ScanRecord)) : Except String TaskOut :=
  match outcome with
  | Except.error e =>
      Except.ok ⟨[⟨[("folder", path), ("task error", e)]⟩], [], none⟩
  | Except.ok rs =>
      let step := fun (acc : TaskOut) (r : ScanRecord) =>
        let p := reconF (fixF r.path)
        let acc1 :=
          if r.sublog.isEmpty then acc
          else ⟨acc.logWrites ++ [⟨[("folder", path), ("logs", logsRepr r.sublog)]⟩],
                acc.csvWrites, acc.retval⟩
        ⟨acc1.logWrites, acc1.csvWrites ++ [p],
         some ((acc1.retval.getD []) ++ [p])⟩
      Except.ok (rs.foldl step ⟨[], [], some []⟩)

/-- `scan_task` (app.py lines 552-598), single-file branch (the `else` arm).
`outcome` is the result of the external call
`scan(path, mode=mode, source=convert, target=target, engine=engine)`:
one record, or the raised exception text.  On success each sub-log entry
is written to the log tagged with `{"file": path}`, then the record's
path is reconstructed and one CSV row is written. -/
def scan_task_file (path : String) (reconF : String → String)
    (outcome : Except String ScanRecord) : Except String TaskOut :=
  match outcome with
  | Except.error e =>
      Except.ok ⟨[⟨[("file", path), ("task error", e)]⟩], [], none⟩
  | Except.ok r =>
      let entries := r.sublog.map (fun l => l.update "file" path)
      let p := reconF r.path
      Except.ok ⟨entries, [p], some [p]⟩

/-- C1: for every work unit whose scoring call raises an exception, both
branches of `scan_task` catch the exception at the task boundary, append
exactly one diagnostic log entry tagged with the unit's batch folder
(folder branch) or file path (file branch) together with the error text,
write no CSV row, and return normally (`retval = none`); and for every
scan outcome whatsoever, both branches return `.ok`, so a task error
never surfaces to the worker pool as a task-level failure. -/
theorem C1_scan_task_error_contained (path e : String)
    (fixF reconF : String → String) :
    scan_task_folder path fixF reconF (Except.error e)
      = Except.ok ⟨[⟨[("folder", path), ("task error", e)]⟩], [], none⟩
    ∧ scan_task_file path reconF (Except.error e)
      = Except.ok ⟨[⟨[("file", path), ("task error", e)]⟩], [], none⟩
    ∧ (∀ oc : Except String (List ScanRecord),
        (scan_task_folder path fixF reconF oc).isOk = true)
    ∧ (∀ oc : Except String ScanRecord,
        (scan_task_file path reconF oc).isOk = true) := by
  refine ⟨rfl, rfl, ?_, ?_⟩
  · intro oc
    cases oc <;> rfl
  · intro oc
    cases oc <;> rfl

/-- The log entries accumulated by a per-file job: the concatenation, in
completion order, of each unit's `write_log` appends.  A unit is a pair of
its submitted path and the outcome of its external `scan` call. -/
def perFileTaskLogs (reconF : String → String)
    (units : List (String × Except String ScanRecord)) : List LogEntry :=
  (units.map (fun u =>
    match scan_task_file u.1 reconF u.2 with
    | Except.ok t => t.logWrites
    | Except.error _ => [])).flatten

/-- The finalizer's recomputed failure count (app.py line 271):
`len([item for item in logs if item.get("load image")])`. -/
def failed_count_recompute (logs : List LogEntry) : Int :=
  ((logs.filter (fun e => truthy (e.get "load image"))).length : Int)

/-- Finalization of the artifact references (app.py lines 249-282).
`reload` is the outcome of the `try` block's external work — sealing the
log with `write_log(log_dir, finish=True)` and reading it back with
`json.load`; on success it carries the reloaded entry list.  Inside the
`try`, line 270 binds `failed_count := (len([... "load image" ...]) if not
failed else failed)`.  If the `try` raises, the `except` arm only echoes a
warning, so `failed_count` stays unbound and the very next statement
`if file_count == failed_count` (line 280, outside the `try`) raises an
uncaught `UnboundLocalError`, modelled as the `.error` result.  Otherwise
line 280 nulls `output_dir` and `report_dir` exactly when
`file_count == failed_count`. -/
def finalizeArtifacts (fileCount failed : Int)
    (reload : Except String (List LogEntry))
    (outputDir reportDir : String) :
    Except String (Option String × Option String × Int) :=
  match reload with
  | Except.error _ => Except.error "UnboundLocalError: failed_count"
  | Except.ok logs =>
      let fc : Int := if failed = 0 then failed_count_recompute logs else failed
      if fileCount = fc then Except.ok (none, none, fc)
      else Except.ok (some outputDir, some reportDir, fc)

/-- Helper for C2: a unit whose scan raised contributes exactly one log
entry, and that entry (keys `"file"` and `"task error"`) does not carry
the `"load image"` marker the finalizer's recount scans for. -/
theorem perFileTaskLogs_all_error_filter (reconF : String → String)
    (units : List (String × Except String ScanRecord))
    (h : ∀ u ∈ units, ∃ e, u.2 = Except.error e) :
    (perFileTaskLogs reconF units).filter
      (fun e => truthy (e.get "load image")) = [] := by
  induction units with
  | nil => rfl
  | cons u us ih =>
      obtain ⟨e, he⟩ := h u (List.mem_cons_self u us)
      have hus : ∀ v ∈ us, ∃ e2, v.2 = Except.error e2 :=
        fun v hv => h v (List.mem_cons_of_mem u hv)
      have hstep : perFileTaskLogs reconF (u :: us)
          = LogEntry.mk [("file", u.1), ("task error", e)]
            :: perFileTaskLogs reconF us := by
        simp [perFileTaskLogs, he, scan_task_file]
      rw [hstep, List.filter_cons]
      have hmark :
          truthy ((LogEntry.mk [("file", u.1), ("task error", e)]).get
            "load image") = false := by
        simp [LogEntry.get, List.find?, truthy]
      simp [hmark, ih hus]

/-- C2 counterexample: a per-file job with a single submitted unit whose
scoring call raises.  Every submitted unit errors, yet the finalizer's
recomputed failure count is `0` (the task-error entry has no
`"load image"` marker), not the submitted total `1`, and the output-table
and report references survive non-null instead of being set to null. -/
theorem C2_counterexample :
    finalizeArtifacts 1 0
        (Except.ok (perFileTaskLogs id [("a.png", Except.error "boom")]))
        "out.csv" "report.html"
      = Except.ok (some "out.csv", some "report.html", 0)
    ∧ (some "out.csv" ≠ (none : Option String)) ∧ ((0 : Int) ≠ 1) := by
  refine ⟨?_, by simp, by decide⟩
  simp [finalizeArtifacts, perFileTaskLogs, scan_task_file,
    failed_count_recompute, LogEntry.get, List.find?, truthy]

/-- C2 as amended: for every per-file job in which every submitted unit's
scoring call raises, the finalizer's recomputed failure count is `0`
(task-error log entries never carry the `"load image"` marker that the
recount scans for), so the output-table and report references are nulled
only in the degenerate zero-unit job and otherwise remain set. -/
theorem C2_all_error_amended (reconF : String → String) (o r : String)
    (units : List (String × Except String ScanRecord))
    (h : ∀ u ∈ units, ∃ e, u.2 = Except.error e) :
    failed_count_recompute (perFileTaskLogs reconF units) = 0
    ∧ finalizeArtifacts (units.length : Int) 0
        (Except.ok (perFileTaskLogs reconF units)) o r
      = (if units.length = 0 then Except.ok (none, none, 0)
         else Except.ok (some o, some r, 0)) := by
  have hf := perFileTaskLogs_all_error_filter reconF units h
  have hc : failed_count_recompute (perFileTaskLogs reconF units) = 0 := by
    simp [failed_count_recompute, hf]
  refine ⟨hc, ?_⟩
  simp only [finalizeArtifacts, hc, if_pos rfl]
  by_cases hz : units.length = 0
  · simp [hz]
  · have : ((units.length : Int)) ≠ 0 := by exact_mod_cast hz
    simp [hz, this]

/-- Witness for the amended C2 at a concrete one-unit all-erroring job. -/
theorem C2_all_error_amended_witness :
    (∀ u ∈ [("a.png", (Except.error "boom" : Except String ScanRecord))],
        ∃ e, u.2 = Except.error e)
    ∧ (failed_count_recompute
          (perFileTaskLogs id [("a.png", Except.error "boom")]) = 0
       ∧ finalizeArtifacts
            (([("a.png", (Except.error "boom" : Except String ScanRecord))].length : Int))
            0 (Except.ok (perFileTaskLogs id [("a.png", Except.error "boom")]))
            "o.csv" "r.html"
          = (if [("a.png",
                  (Except.error "boom" : Except String ScanRecord))].length = 0
             then Except.ok (none, none, 0)
             else Except.ok (some "o.csv", some "r.html", 0))) := by
  have h : ∀ u ∈ [("a.png", (Except.error "boom" : Except String ScanRecord))],
      ∃ e, u.2 = Except.error e := by
    intro u hu
    simp only [List.mem_singleton] at hu
    exact ⟨"boom", by rw [hu]⟩
  exact ⟨h, C2_all_error_amended id "o.csv" "r.html" _ h⟩

/-- C3 (code-bug evidence): a job that reaches finalization with
`file_count = 5`, `failed = 0`, whose sealed-log reload raises (here a
JSON decode error).  The source's `except` arm prints its warning, but
`failed_count` is left unbound, and the immediately following
`if file_count == failed_count` (outside the `try`) raises an uncaught
`UnboundLocalError`: the job aborts before the summary is emitted,
contradicting the claim that finalization failures are caught locally and
the job still completes. -/
theorem C3_log_reload_crash :
    finalizeArtifacts 5 0
        (Except.error "Expecting value: line 1 column 1 (char 0)")
        "out.csv" "report.html"
      = Except.error "UnboundLocalError: failed_count" := rfl

/-- App.py line 75: `TYPE = type if mode != "speech" else ["wav"]`. -/
def effectiveTYPE (mode : String) (type : List String) : List String :=
  if mode ≠ "speech" then type else ["wav"]

/-- Modelled from the spec: `extended` lives in `openbq.utils`, which is not
under `src/`; the spec states that each requested extension is expanded to
include both upper and lower case (case-insensitive extension match). -/
def extended (ts : List String) : List String :=
  (ts.map (fun t => [t.toLower, t.toUpper])).flatten

/-- The extension list `run` passes to input counting (app.py line 99),
input discovery (line 139) and batch partitioning (line 152):
`extended(TYPE)` in all three places. -/
def discoveryExts (mode : String) (type : List String) : List String :=
  extended (effectiveTYPE mode type)

/-- App.py lines 113-116: `if limit:` (nonzero is truthy), then
`if limit < file_total: file_total = limit`. -/
def clampTotal (file_total limit : Int) : Int :=
  if limit ≠ 0 then (if limit < file_total then limit else file_total)
  else file_total

/-- The two dispatch policies of §4.2. -/
inductive Policy where
  | perBatch
  | perFile
deriving Repr, DecidableEq

/-- App.py line 145:
`mode == "speech" or (mode == "face" and engine in ("ofiq", "fusion"))`
selects the per-batch branch; everything else takes the per-file branch. -/
def selectPolicy (mode engine : String) : Policy :=
  if mode = "speech" ∨ (mode = "face" ∧ (engine = "ofiq" ∨ engine = "fusion"))
  then Policy.perBatch else Policy.perFile

/-- Outcome of the prologue of `run`: the `click.echo` messages, whether the
output artifacts were created (`write_csv(init)` / `write_log(init)`,
lines 136-137), which dispatch policy (if any) the job goes on to run,
and the clamped job total. -/
structure StartResult where
  messages : List String
  artifactsCreated : Bool
  policyRun : Option Policy
  file_total : Int
deriving Repr, DecidableEq

/-- The prologue of `run` (app.py lines 90-152).  `countMatching` is the
external `sum(1 for _ in iter_matching_files(input_folder, pattern, exts))`
count as a function of the extension list; `inputExists` is the
`os.path.exists(input_folder)` check.  The directory-not-found message is
kept without its interpolated path.  Both early returns happen before the
output CSV, log and report paths are computed and before
`write_csv(output_dir, init=True)` / `write_log(log_dir, init=True)` run,
so no artifact is created on those paths. -/
def run_start (mode engine : String) (type : List String)
    (countMatching : List String → Int) (inputExists : Bool)
    (limit : Int) : StartResult :=
  if !inputExists then
    ⟨[">>> Input directory not found. Exit.\n"], false, none, 0⟩
  else
    let avail := countMatching (discoveryExts mode type)
    let msgs :=
      if limit ≠ 0 then ["Scan number limit: " ++ toString limit] else []
    let file_total := clampTotal avail limit
    if file_total = 0 then
      ⟨msgs ++ [">>> No valid input found. Exit.\n"], false, none, file_total⟩
    else
      ⟨msgs, true, some (selectPolicy mode engine), file_total⟩

/-- The per-file submission loop (app.py lines 200-217): for each enumerated
path, submit the task, increment `file_count`, advance the sending
progress bar by one, and break once the bar is finished
(`completed ≥ total`).  Returns the list of submitted paths; the source's
`file_count` equals its length, since it is incremented exactly once per
submission. -/
def submitLoop (total : Int) (completed : Int) : List String → List String
  | [] => []
  | p :: ps =>
      if total ≤ completed + 1 then [p]
      else p :: submitLoop total (completed + 1) ps

/-- Helper for C4: length of the submission list, as the source's limit
clamp sees it. -/
theorem submitLoop_length (total : Int) :
    ∀ (ps : List String) (completed : Int), completed < total →
      ((submitLoop total completed ps).length : Int)
        = min (total - completed) (ps.length : Int) := by
  intro ps
  induction ps with
  | nil =>
      intro completed h
      simp only [submitLoop, List.length_nil, Int.min_def]
      split_ifs <;> omega
  | cons p ps ih =>
      intro completed h
      by_cases hb : total ≤ completed + 1
      · simp only [submitLoop, if_pos hb, List.length_cons, List.length_nil,
          List.length_singleton, Int.min_def]
        split_ifs <;> push_cast <;> omega
      · have h1 : completed + 1 < total := by omega
        have hrec := ih (completed + 1) h1
        simp only [submitLoop, if_neg hb, List.length_cons]
        push_cast
        push_cast at hrec
        simp only [Int.min_def] at hrec ⊢
        split_ifs at hrec ⊢ <;> omega

/-- C4: for every job with a user-supplied limit `L` with
`0 < L < available`, the clamp at lines 113-116 sets the job total to
`L`, and the per-file submission loop submits exactly `L` work units (its
`file_count`, the summary's processed count, therefore also equals `L`). -/
theorem C4_limit_exact (paths : List String) (L : Int)
    (h1 : 0 < L) (h2 : L < (paths.length : Int)) :
    clampTotal (paths.length : Int) L = L
    ∧ ((submitLoop (clampTotal (paths.length : Int) L) 0 paths).length : Int)
        = L := by
  have hc : clampTotal (paths.length : Int) L = L := by
    simp only [clampTotal]
    split_ifs <;> omega
  refine ⟨hc, ?_⟩
  rw [hc, submitLoop_length L paths 0 h1]
  simp only [Int.min_def]
  split_ifs <;> omega

/-- Witness for C4 at a concrete job: three available files, limit 2. -/
theorem C4_limit_exact_witness :
    (0 : Int) < 2 ∧ (2 : Int) < ((["a", "b", "c"] : List String).length : Int)
    ∧ (clampTotal (((["a", "b", "c"] : List String).length : Int)) 2 = 2
       ∧ ((submitLoop (clampTotal (((["a", "b", "c"] : List String).length : Int)) 2)
            0 ["a", "b", "c"]).length : Int) = 2) :=
  ⟨by decide, by decide, C4_limit_exact ["a", "b", "c"] 2 (by decide) (by decide)⟩

/-- C5: for every job whose effective total of matching inputs is zero after
the limit clamp, `run` echoes the no-valid-input condition and returns
before any output artifact (table, log, report) is created and before
either dispatch policy starts. -/
theorem C5_zero_total_no_artifacts (mode engine : String) (type : List String)
    (countMatching : List String → Int) (limit : Int)
    (h : clampTotal (countMatching (discoveryExts mode type)) limit = 0) :
    (run_start mode engine type countMatching true limit).messages.getLast?
      = some ">>> No valid input found. Exit.\n"
    ∧ (run_start mode engine type countMatching true limit).artifactsCreated
      = false
    ∧ (run_start mode engine type countMatching true limit).policyRun
      = none := by
  simp [run_start, h]

/-- Witness for C5: an existing input directory with zero matching files
and no limit. -/
theorem C5_zero_total_no_artifacts_witness :
    clampTotal ((fun _ : List String => (0 : Int)) (discoveryExts "face" ["png"])) 0 = 0
    ∧ ((run_start "face" "obqe" ["png"] (fun _ => (0 : Int)) true 0).messages.getLast?
        = some ">>> No valid input found. Exit.\n"
       ∧ (run_start "face" "obqe" ["png"] (fun _ => (0 : Int)) true 0).artifactsCreated
        = false
       ∧ (run_start "face" "obqe" ["png"] (fun _ => (0 : Int)) true 0).policyRun
        = none) :=
  ⟨rfl, C5_zero_total_no_artifacts "face" "obqe" ["png"] (fun _ => 0) 0 rfl⟩

/-- C10: in speech mode the extension list used for input counting,
discovery, and batch partitioning is the case-expansion of exactly
`["wav"]`, whatever the user's type list; for every other mode it is the
case-expansion of the user's type list, so the type argument affects
extension matching only outside speech mode. -/
theorem C10_speech_wav (mode : String) (type : List String)
    (countMatching : List String → Int) (engine : String) (limit : Int)
    (h : mode ≠ "speech") :
    effectiveTYPE "speech" type = ["wav"]
    ∧ discoveryExts "speech" type = extended ["wav"]
    ∧ (run_start "speech" engine type countMatching true limit).file_total
        = clampTotal (countMatching (extended ["wav"])) limit
    ∧ effectiveTYPE mode type = type
    ∧ discoveryExts mode type = extended type := by
  refine ⟨rfl, rfl, ?_, ?_, ?_⟩
  · simp only [run_start, Bool.not_true, Bool.false_eq_true, if_false,
      discoveryExts, effectiveTYPE]
    split_ifs with hz <;> simp_all
  · simp [effectiveTYPE, h]
  · simp [discoveryExts, effectiveTYPE, h]

/-- Witness for C10 in face mode with a user type list. -/
theorem C10_speech_wav_witness :
    ("face" : String) ≠ "speech"
    ∧ (effectiveTYPE "speech" ["jpg"] = ["wav"]
       ∧ discoveryExts "speech" ["jpg"] = extended ["wav"]
       ∧ (run_start "speech" "obqe" ["jpg"] (fun _ => (7 : Int)) true 0).file_total
           = clampTotal ((fun _ : List String => (7 : Int)) (extended ["wav"])) 0
       ∧ effectiveTYPE "face" ["jpg"] = ["jpg"]
       ∧ discoveryExts "face" ["jpg"] = extended ["jpg"]) :=
  ⟨by decide, C10_speech_wav "face" ["jpg"] (fun _ => 7) "obqe" 0 (by decide)⟩

/-- App.py line 224: `eta_step = 10`, the fixed completion window of the
per-file draining loop. -/
def eta_step : Nat := 10

/-- One observable action of the per-file draining loop.  `setFull` models
`p.update(task_progress, completed=file_total)` taken when fewer than
`eta_step` tasks are outstanding; `waited` models one
`ray.wait(tasks, num_returns=eta_step)` followed by
`p.update(task_progress, advance=len(ready))`.  Each event records the
outstanding count when the loop head was evaluated and the displayed
progress around the update. -/
inductive DrainEvent where
  | setFull (outstandingBefore displayedBefore : Nat)
  | waited (got outstandingBefore displayedBefore displayedAfter : Nat)
deriving Repr, DecidableEq

/-- Displayed progress right after an event: `setFull` shows the full total,
`waited` shows its recorded after-value. -/
def displayedOf (total : Nat) : DrainEvent → Nat
  | DrainEvent.setFull _ _ => total
  | DrainEvent.waited _ _ _ d => d

/-- Whether an event is a windowed wait. -/
def isWaited : DrainEvent → Bool
  | DrainEvent.waited _ _ _ _ => true
  | _ => false

/-- The per-file draining loop (app.py lines 234-241):

while not p.finished — `completed < total`;
if `len(not_ready) < eta_step`: set displayed progress to `file_total` and
`continue` (the loop head then observes the bar finished and exits);
otherwise `ray.wait(tasks, num_returns=eta_step)` blocks until exactly
`eta_step` of the outstanding tasks complete (possible because at least
`eta_step` are outstanding) and the display advances by `len(ready)`.
Returns the event list and the outstanding count handed to the final
blocking `ray.get(not_ready)` on line 241. -/
def drainLoop (total outstanding completed : Nat) : List DrainEvent × Nat :=
  if total ≤ completed then ([], outstanding)
  else if outstanding < eta_step then
    let rest := drainLoop total outstanding total
    (DrainEvent.setFull outstanding completed :: rest.1, rest.2)
  else
    let rest := drainLoop total (outstanding - eta_step) (completed + eta_step)
    (DrainEvent.waited eta_step outstanding completed (completed + eta_step)
       :: rest.1, rest.2)
termination_by total + 1 - completed
decreasing_by
  · omega
  · simp only [eta_step]
    omega

/-- Unfolding lemma: a finished progress bar exits the loop at once. -/
theorem drainLoop_done (total outstanding completed : Nat)
    (h : total ≤ completed) : drainLoop total outstanding completed
      = ([], outstanding) := by
  rw [drainLoop]
  simp [h]

/-- Helper for C6: the draining loop only waits in windows of exactly
`eta_step` when at least `eta_step` tasks are outstanding, a `setFull`
step happens only below the window, is the last event, and leaves its
outstanding tasks to the final blocking get; and every initially
outstanding task is accounted for by the windowed waits plus the final
blocking get. -/
theorem drainLoop_spec (total outstanding completed : Nat) :
    (∀ got o db da,
        DrainEvent.waited got o db da ∈ (drainLoop total outstanding completed).1 →
          got = eta_step ∧ eta_step ≤ o ∧ da = db + got)
    ∧ (∀ o db,
        DrainEvent.setFull o db ∈ (drainLoop total outstanding completed).1 →
          o < eta_step
          ∧ (drainLoop total outstanding completed).1.getLast?
              = some (DrainEvent.setFull o db)
          ∧ (drainLoop total outstanding completed).2 = o)
    ∧ (drainLoop total outstanding completed).2
        + eta_step
            * ((drainLoop total outstanding completed).1.countP
                (fun ev => isWaited ev))
        = outstanding := by
  have main : ∀ (n outstanding completed : Nat), total + 1 - completed ≤ n →
      (∀ got o db da,
          DrainEvent.waited got o db da
              ∈ (drainLoop total outstanding completed).1 →
            got = eta_step ∧ eta_step ≤ o ∧ da = db + got)
      ∧ (∀ o db,
          DrainEvent.setFull o db ∈ (drainLoop total outstanding completed).1 →
            o < eta_step
            ∧ (drainLoop total outstanding completed).1.getLast?
                = some (DrainEvent.setFull o db)
            ∧ (drainLoop total outstanding completed).2 = o)
      ∧ (drainLoop total outstanding completed).2
          + eta_step
              * ((drainLoop total outstanding completed).1.countP
                  (fun ev => isWaited ev))
          = outstanding := by
    intro n
    induction n with
    | zero =>
        intro outstanding completed hc
        have h : total ≤ completed := by omega
        rw [drainLoop_done total outstanding completed h]
        exact ⟨fun got o db da hm => absurd hm (by simp),
               fun o db hm => absurd hm (by simp), by simp⟩
    | succ n ihn =>
        intro outstanding completed hc
        by_cases h1 : total ≤ completed
        · rw [drainLoop_done total outstanding completed h1]
          exact ⟨fun got o db da hm => absurd hm (by simp),
                 fun o db hm => absurd hm (by simp), by simp⟩
        · by_cases h2 : outstanding < eta_step
          · have heq : drainLoop total outstanding completed
                = ([DrainEvent.setFull outstanding completed], outstanding) := by
              rw [drainLoop]
              simp [h1, h2,
                drainLoop_done total outstanding total (le_refl total)]
            rw [heq]
            refine ⟨?_, ?_, ?_⟩
            · intro got o db da hm
              simp at hm
            · intro o db hm
              simp only [List.mem_singleton, DrainEvent.setFull.injEq] at hm
              refine ⟨by omega, by simp [hm.1, hm.2], hm.1.symm⟩
            · simp [isWaited]
          · obtain ⟨ihW, ihS, ihA⟩ :=
              ihn (outstanding - eta_step) (completed + eta_step)
                (by simp only [eta_step]; omega)
            have heq : drainLoop total outstanding completed
                = (DrainEvent.waited eta_step outstanding completed
                     (completed + eta_step)
                     :: (drainLoop total (outstanding - eta_step)
                           (completed + eta_step)).1,
                   (drainLoop total (outstanding - eta_step)
                      (completed + eta_step)).2) := by
              rw [drainLoop]
              simp [h1, h2]
            rw [heq]
            refine ⟨?_, ?_, ?_⟩
            · intro got o db da hm
              rcases List.mem_cons.mp hm with hh | ht
              · injection hh with e1 e2 e3 e4
                subst e1; subst e2; subst e3; subst e4
                exact ⟨rfl, by omega, rfl⟩
              · exact ihW got o db da ht
            · intro o db hm
              rcases List.mem_cons.mp hm with hh | ht
              · exact absurd hh (by simp)
              · obtain ⟨ho, hlast, hfin⟩ := ihS o db ht
                refine ⟨ho, ?_, hfin⟩
                cases hr : (drainLoop total (outstanding - eta_step)
                    (completed + eta_step)).1 with
                | nil => rw [hr] at hlast; simp at hlast
                | cons x xs =>
                    rw [hr] at hlast
                    simp [hr, List.getLast?_cons_cons, hlast]
            · show (drainLoop total (outstanding - eta_step)
                    (completed + eta_step)).2
                  + eta_step
                      * List.countP (fun ev => isWaited ev)
                          (DrainEvent.waited eta_step outstanding completed
                              (completed + eta_step)
                            :: (drainLoop total (outstanding - eta_step)
                                  (completed + eta_step)).1)
                = outstanding
              rw [List.countP_cons_of_pos (fun ev => isWaited ev) _ (by rfl)]
              simp only [eta_step] at ihA h2 ⊢
              omega
  exact main (total + 1 - completed) outstanding completed (le_refl _)

/-- C6: in the per-file draining loop, every windowed wait retrieves exactly
`eta_step = 10` completions, happens only when at least 10 tasks are
outstanding, and advances the display by exactly the number retrieved;
whenever fewer than 10 tasks are outstanding the loop instead sets the
displayed progress to the full total, performs no further wait, and
leaves all its outstanding tasks to the final blocking get; and the
windowed waits together with the final blocking get account for every
initially outstanding task, so none is left pending when finalization
begins. -/
theorem C6_drain_two_phase (total outstanding completed : Nat) :
    (∀ got o db da,
        DrainEvent.waited got o db da ∈ (drainLoop total outstanding completed).1 →
          got = eta_step ∧ eta_step ≤ o ∧ da = db + got)
    ∧ (∀ o db,
        DrainEvent.setFull o db ∈ (drainLoop total outstanding completed).1 →
          o < eta_step
          ∧ displayedOf total (DrainEvent.setFull o db) = total
          ∧ (drainLoop total outstanding completed).1.getLast?
              = some (DrainEvent.setFull o db)
          ∧ (drainLoop total outstanding completed).2 = o)
    ∧ (drainLoop total outstanding completed).2
        + eta_step
            * ((drainLoop total outstanding completed).1.countP
                (fun ev => isWaited ev))
        = outstanding := by
  obtain ⟨hW, hS, hA⟩ := drainLoop_spec total outstanding completed
  refine ⟨hW, ?_, hA⟩
  intro o db hm
  obtain ⟨ho, hlast, hfin⟩ := hS o db hm
  exact ⟨ho, rfl, hlast, hfin⟩

/-- State of the per-batch dispatch loop (app.py lines 141-191):
`file_count` and `failed` are the accumulating counters, `batch` is the
(mutable!) `batch` variable, and `displayed` is the cumulative progress
advanced on the bar (`p.update(task_progress, advance=...)` sums). -/
structure BatchState where
  file_count : Int
  failed : Int
  batch : Int
  displayed : Int
deriving Repr, DecidableEq

/-- One iteration of the per-batch dispatch loop (app.py lines 183-190),
after the poll-and-sleep loop has seen the in-flight batch complete.
`ok` is the truthiness of `ray.get(ready)[0]` (falsy when `scan_task`
returned `None` after a task error).  On success: `file_count += batch`;
if it overshoots `file_total`, `batch` is rewritten to
`file_total - file_count + batch` (with the already-incremented
`file_count`) and `file_count` is clipped to `file_total`; then the bar
advances by `batch`.  On failure: `failed += batch`, nothing else. -/
def batchStep (file_total : Int) (s : BatchState) : Bool → BatchState
  | true =>
      let fc := s.file_count + s.batch
      if file_total < fc then
        let b := file_total - fc + s.batch
        ⟨file_total, s.failed, b, s.displayed + b⟩
      else
        ⟨fc, s.failed, s.batch, s.displayed + s.batch⟩
  | false =>
      ⟨s.file_count, s.failed + s.batch, s.batch, s.displayed⟩

/-- Loop entry state (lines 141-142): counters zero, the configured batch
size. -/
def batchInit (batch : Int) : BatchState := ⟨0, 0, batch, 0⟩

/-- The whole per-batch loop over the sequence of batch outcomes, in
submission order (one outcome per yielded batch folder). -/
def batchRun (file_total : Int) : BatchState → List Bool → BatchState
  | s, [] => s
  | s, ok :: rest => batchRun file_total (batchStep file_total s ok) rest

/-- Displayed cumulative progress after each iteration of the per-batch
loop. -/
def batchTrace (file_total : Int) : BatchState → List Bool → List Int
  | _, [] => []
  | s, ok :: rest =>
      (batchStep file_total s ok).displayed
        :: batchTrace file_total (batchStep file_total s ok) rest

/-- Loop invariant of the per-batch dispatch: the batch variable stays
non-negative, `file_count` never exceeds the job total, and the
cumulative displayed progress equals `file_count`. -/
def BatchInv (file_total : Int) (s : BatchState) : Prop :=
  0 ≤ s.batch ∧ s.file_count ≤ file_total ∧ s.displayed = s.file_count

theorem batchStep_inv (file_total : Int) (s : BatchState) (ok : Bool)
    (h : BatchInv file_total s) : BatchInv file_total (batchStep file_total s ok) := by
  obtain ⟨hb, hfc, hd⟩ := h
  cases ok with
  | false => exact ⟨hb, hfc, hd⟩
  | true =>
      unfold BatchInv batchStep
      dsimp only
      split_ifs with hclip <;> dsimp only <;> refine ⟨?_, ?_, ?_⟩ <;> omega

theorem batchStep_displayed_mono (file_total : Int) (s : BatchState) (ok : Bool)
    (h : BatchInv file_total s) :
    s.displayed ≤ (batchStep file_total s ok).displayed := by
  obtain ⟨hb, hfc, hd⟩ := h
  cases ok with
  | false => exact le_refl s.displayed
  | true =>
      unfold batchStep
      dsimp only
      split_ifs with hclip <;> dsimp only <;> omega

/-- Helper for C7: along any outcome sequence the per-batch displayed
progress is monotone, bounded by the total, and below by the entry
display. -/
theorem batchTrace_mono (file_total : Int) :
    ∀ (oks : List Bool) (s : BatchState), BatchInv file_total s →
      List.Chain' (fun a b => a ≤ b) (batchTrace file_total s oks)
      ∧ ∀ x ∈ batchTrace file_total s oks,
          s.displayed ≤ x ∧ x ≤ file_total := by
  intro oks
  induction oks with
  | nil =>
      intro s h
      exact ⟨List.chain'_nil, by simp [batchTrace]⟩
  | cons ok rest ih =>
      intro s h
      have hinv2 := batchStep_inv file_total s ok h
      obtain ⟨ihc, ihb⟩ := ih (batchStep file_total s ok) hinv2
      have hmono := batchStep_displayed_mono file_total s ok h
      have hle : (batchStep file_total s ok).displayed ≤ file_total := by
        obtain ⟨b2, f2, d2⟩ := hinv2
        omega
      constructor
      · rw [batchTrace]
        apply List.chain'_cons'.mpr
        refine ⟨?_, ihc⟩
        intro y hy
        exact (ihb y (List.mem_of_mem_head? hy)).1
      · intro x hx
        rw [batchTrace] at hx
        rcases List.mem_cons.mp hx with hh | ht
        · subst hh
          exact ⟨hmono, hle⟩
        · obtain ⟨h1x, h2x⟩ := ihb x ht
          exact ⟨le_trans hmono h1x, h2x⟩

/-- Helper for C7: monotone bounded displayed trace of the per-file
draining loop, from any loop state whose completed display plus
outstanding count is below the total (the loop is entered with
`completed = 0` and `outstanding = total - 1` after the priming wait
consumed one completion without advancing the bar). -/
theorem drainLoop_trace_mono (total : Nat) :
    ∀ (n outstanding completed : Nat), total + 1 - completed ≤ n →
      completed + outstanding < total →
      List.Chain' (fun a b => a ≤ b)
        ((drainLoop total outstanding completed).1.map (displayedOf total))
      ∧ ∀ x ∈ (drainLoop total outstanding completed).1.map (displayedOf total),
          completed ≤ x ∧ x ≤ total := by
  intro n
  induction n with
  | zero =>
      intro outstanding completed hc hinv
      omega
  | succ n ihn =>
      intro outstanding completed hc hinv
      have h1 : ¬ total ≤ completed := by omega
      by_cases h2 : outstanding < eta_step
      · have heq : drainLoop total outstanding completed
            = ([DrainEvent.setFull outstanding completed], outstanding) := by
          rw [drainLoop]
          simp [h1, h2, drainLoop_done total outstanding total (le_refl total)]
        rw [heq]
        refine ⟨by simp, ?_⟩
        intro x hx
        simp only [List.map_cons, List.map_nil, List.mem_singleton,
          displayedOf] at hx
        subst hx
        exact ⟨by omega, by omega⟩
      · have heq : drainLoop total outstanding completed
            = (DrainEvent.waited eta_step outstanding completed
                 (completed + eta_step)
                 :: (drainLoop total (outstanding - eta_step)
                       (completed + eta_step)).1,
               (drainLoop total (outstanding - eta_step)
                  (completed + eta_step)).2) := by
          rw [drainLoop]
          simp [h1, h2]
        obtain ⟨ihc, ihb⟩ :=
          ihn (outstanding - eta_step) (completed + eta_step)
            (by simp only [eta_step]; omega)
            (by simp only [eta_step] at h2 ⊢; omega)
        rw [heq]
        constructor
        · simp only [List.map_cons, displayedOf]
          apply List.chain'_cons'.mpr
          refine ⟨?_, ihc⟩
          intro y hy
          exact (ihb y (List.mem_of_mem_head? hy)).1
        · intro x hx
          simp only [List.map_cons, displayedOf] at hx
          rcases List.mem_cons.mp hx with hh | ht
          · subst hh
            simp only [eta_step] at h2 ⊢
            omega
          · obtain ⟨h1x, h2x⟩ := ihb x ht
            exact ⟨by omega, h2x⟩

/-- The conjunction claimed by C7: monotone, total-bounded displayed
progress under both dispatch policies, and exact clipping of the final
partial batch in the per-batch policy. -/
def ProgressClaim (file_total B : Int) (oks : List Bool) (total : Nat) : Prop :=
  (List.Chain' (fun a b => a ≤ b) (batchTrace file_total (batchInit B) oks)
   ∧ ∀ x ∈ batchTrace file_total (batchInit B) oks, x ≤ file_total)
  ∧ (∀ s : BatchState, BatchInv file_total s →
       file_total < s.file_count + s.batch →
         (batchStep file_total s true).displayed = file_total
         ∧ (batchStep file_total s true).file_count = file_total)
  ∧ (List.Chain' (fun a b => a ≤ b)
       ((drainLoop total (total - 1) 0).1.map (displayedOf total))
     ∧ ∀ x ∈ (drainLoop total (total - 1) 0).1.map (displayedOf total),
         x ≤ total)

/-- C7: under both dispatch policies the displayed cumulative progress is
monotonically non-decreasing and never exceeds the job total; and in the
per-batch policy, a success step that would overshoot the total is
clipped so both the completed-file counter and the displayed progress
land exactly on the total. -/
theorem C7_progress_monotone_bounded (file_total B : Int) (oks : List Bool)
    (total : Nat) (hB : 0 ≤ B) (hT : 0 ≤ file_total) (ht : 0 < total) :
    ProgressClaim file_total B oks total := by
  have hinv0 : BatchInv file_total (batchInit B) := by
    refine ⟨hB, hT, rfl⟩
  obtain ⟨hchain, hbnd⟩ := batchTrace_mono file_total oks (batchInit B) hinv0
  refine ⟨⟨hchain, fun x hx => (hbnd x hx).2⟩, ?_, ?_⟩
  · intro s hs hover
    obtain ⟨hb, hfc, hd⟩ := hs
    unfold batchStep
    dsimp only
    rw [if_pos hover]
    dsimp only
    constructor <;> omega
  · obtain ⟨hchain2, hbnd2⟩ :=
      drainLoop_trace_mono total (total + 1) (total - 1) 0 (by omega) (by omega)
    exact ⟨hchain2, fun x hx => (hbnd2 x hx).2⟩

/-- Witness for C7: per-batch job with total 47, batch size 30, a success,
a failure, and a clipping success; per-file job with total 25. -/
theorem C7_progress_monotone_bounded_witness :
    (0 : Int) ≤ 30 ∧ (0 : Int) ≤ 47 ∧ 0 < 25
    ∧ ProgressClaim 47 30 [true, false, true] 25 :=
  ⟨by decide, by decide, by decide,
   C7_progress_monotone_bounded 47 30 [true, false, true] 25
     (by decide) (by decide) (by decide)⟩

/-- C9: in the per-batch policy the failure branch (app.py line 190)
increments `failed` by the current full batch-size variable, touching
neither `file_count` nor the display nor `batch`, and applies none of the
success branch's clipping; concretely, a job with 5 files and configured
batch size 30 has one batch folder containing 5 files, and when that
batch's task resolves falsy the tracked failed count becomes 30,
exceeding both the 5 files actually in the batch and the job total 5. -/
theorem C9_failure_full_batch_increment :
    (∀ (file_total : Int) (s : BatchState),
        (batchStep file_total s false).failed = s.failed + s.batch
        ∧ (batchStep file_total s false).file_count = s.file_count
        ∧ (batchStep file_total s false).batch = s.batch
        ∧ (batchStep file_total s false).displayed = s.displayed)
    ∧ (batchRun 5 (batchInit 30) [false]).failed = 30
    ∧ (5 : Int) < (batchRun 5 (batchInit 30) [false]).failed
    ∧ (batchRun 5 (batchInit 30) [false]).file_count = 0 := by
  exact ⟨fun t s => ⟨rfl, rfl, rfl, rfl⟩, by decide, by decide, by decide⟩

/-- Rendering of a nullable artifact reference in the summary JSON. -/
def optRefStr : Option String → String
  | none => "null"
  | some s => s

/-- The "Assessment Task" block of the final summary (app.py lines
323-330), as ordered key-value pairs.  Line 325, `"Failed": failed_count`,
is commented out in the source, so no Failed pair is emitted. -/
def summaryAssessmentPairs (file_count : Int) (input_folder : String)
    (output_dir report_dir : Option String) (log_dir : String) :
    List (String × String) :=
  [("Processed", toString file_count),
   ("Input", input_folder),
   ("Output", optRefStr output_dir),
   ("Report", optRefStr report_dir),
   ("Log", log_dir)]

/-- Top-level keys of the final summary object (app.py lines 320-333):
the elapsed time, the throughput, the assessment block, and the outlier
filter block when one was produced. -/
def summaryTopKeys (hasOutlierFilter : Bool) : List String :=
  ["Total process time", "System throughput", "Assessment Task"]
    ++ (if hasOutlierFilter then ["Outlier Filter"] else [])

/-- The terminal console output of `run` (app.py lines 319-336): the
summary banner, the JSON-rendered summary, and the plain termination
signal. -/
def runEpilogue (renderedSummary : String) : List String :=
  ["\n> Summary:", renderedSummary,
   "\n>> [bright_yellow]Task Finished[/bright_yellow] <<\n"]

/-- C8 counterexample: the final summary of a concrete job that reached
finalization carries no "Failed" key anywhere — neither among the
top-level keys (with or without an outlier-filter block) nor in the
"Assessment Task" block — because line 325 is commented out, so the
summary does not contain the failed count the claim lists. -/
theorem C8_counterexample :
    "Failed" ∉ ((summaryAssessmentPairs 5 "data/" (some "out.csv") none
        "log.json").map Prod.fst)
    ∧ "Failed" ∉ summaryTopKeys false
    ∧ "Failed" ∉ summaryTopKeys true := by
  refine ⟨by decide, by decide, by decide⟩

/-- C8 as amended: for every job that reaches the summary emission, the
structured summary contains the elapsed wall-clock time, the throughput,
the processed count, the input location and the table, report and log
artifact locations — but not the failed count, whose line is commented
out — and is followed by the plain termination signal. -/
theorem C8_summary_amended (file_count : Int) (input_folder : String)
    (output_dir report_dir : Option String) (log_dir : String)
    (hasOF : Bool) (rendered : String) :
    "Total process time" ∈ summaryTopKeys hasOF
    ∧ "System throughput" ∈ summaryTopKeys hasOF
    ∧ "Assessment Task" ∈ summaryTopKeys hasOF
    ∧ (summaryAssessmentPairs file_count input_folder output_dir report_dir
        log_dir).map Prod.fst
      = ["Processed", "Input", "Output", "Report", "Log"]
    ∧ ("Processed", toString file_count)
        ∈ summaryAssessmentPairs file_count input_folder output_dir report_dir
            log_dir
    ∧ ("Output", optRefStr output_dir)
        ∈ summaryAssessmentPairs file_count input_folder output_dir report_dir
            log_dir
    ∧ ("Report", optRefStr report_dir)
        ∈ summaryAssessmentPairs file_count input_folder output_dir report_dir
            log_dir
    ∧ ("Log", log_dir)
        ∈ summaryAssessmentPairs file_count input_folder output_dir report_dir
            log_dir
    ∧ "Failed" ∉ ((summaryAssessmentPairs file_count input_folder output_dir
        report_dir log_dir).map Prod.fst)
    ∧ (runEpilogue rendered).getLast?
        = some "\n>> [bright_yellow]Task Finished[/bright_yellow] <<\n" := by
  cases hasOF <;>
    exact ⟨by simp [summaryTopKeys], by simp [summaryTopKeys],
      by simp [summaryTopKeys], by simp [summaryAssessmentPairs],
      by simp [summaryAssessmentPairs], by simp [summaryAssessmentPairs],
      by simp [summaryAssessmentPairs], by simp [summaryAssessmentPairs],
      by simp [summaryAssessmentPairs], rfl⟩

end OpenBQ
